import Mathlib

/-!
# vscode-marketplace-api: the resolution pipeline of `main.go`

A shallow embedding of `main.go`.  Every Go function of the pipeline is a Lean
function of the same name.  What the program reaches through libraries is
made explicit:

* a Go call either returns or panics: `Outcome α` is `Except PanicValue α`;
* the remote world (`goquery.NewDocument`, `json.Unmarshal`, `http.Get`) is a
  record `Env` of functions, passed to every function that performs I/O;
* `html/template` is embedded for the fragment the two templates of the
  program use: literal text and field actions, rendered in HTML text context;
* `http.ResponseWriter` is a value that records the header map, the status
  line committed together with a snapshot of the header map, and the body.

Output on standard output (`fmt.Println`) is not part of the embedding.
-/

namespace Marketplace

/-! ## Go outcomes -/

/-- What a panicking Go call carries: either the `error` value handed to an
explicit `panic(err)`, or the bounds-check failure raised by the runtime for
`xs[index]` when `len(xs) = length`. -/
inductive PanicValue where
  | err (msg : String)
  | indexOutOfRange (index length : Nat)
deriving DecidableEq, Repr

/-- A Go call returns a value (`Except.ok`) or panics (`Except.error`). -/
abbrev Outcome (α : Type) := Except PanicValue α

/-- Go slice indexing `xs[n]`, with the runtime bounds check. -/
def index {α : Type} (xs : List α) (n : Nat) : Outcome α :=
  match xs.get? n with
  | some x => Except.ok x
  | none => Except.error (PanicValue.indexOutOfRange n xs.length)

/-! ## Data model (`main.go` lines 17-74) -/

structure publisher where
  PublisherId : String
  PublisherName : String
  DisplayName : String
  Flags : String
deriving DecidableEq, Repr

structure file where
  AssetType : String
  Source : String
deriving DecidableEq, Repr

structure version where
  Version : String
  Flags : String
  LastUpdated : String
  Files : List file
  AssetURI : String
  FallbackAssetURI : String
deriving DecidableEq, Repr

/-- The field `Value` is a `float32` in the source; it is carried as the
decimal text of the number, no claim computes with it. -/
structure statistic where
  StatisticName : String
  Value : String
deriving DecidableEq, Repr

structure target where
  Target : String
  TargetVersion : String
deriving DecidableEq, Repr

structure vss where
  Publisher : publisher
  ExtensionID : String
  ExtensionName : String
  DisplayName : String
  Flags : String
  LastUpdated : String
  PublishedDate : String
  ReleaseDate : String
  ShortDescription : String
  Versions : List version
  Categories : List String
  Tags : List String
  Statistics : List statistic
  InstallationTargets : List target
  DeploymentType : Int
deriving DecidableEq, Repr

/-- The zero value of `vss` (`var details vss`). -/
def vss.zero : vss :=
  { Publisher := { PublisherId := "", PublisherName := "", DisplayName := "", Flags := "" }
    ExtensionID := ""
    ExtensionName := ""
    DisplayName := ""
    Flags := ""
    LastUpdated := ""
    PublishedDate := ""
    ReleaseDate := ""
    ShortDescription := ""
    Versions := []
    Categories := []
    Tags := []
    Statistics := []
    InstallationTargets := []
    DeploymentType := 0 }

structure item where
  Publisher : String
  Extension : String
  Version : String
  Link : String
  DownloadLink : String
  APIDownloadLink : String
  Details : vss
deriving DecidableEq, Repr

/-! ## The request (`net/http`, `gorilla/mux`) -/

/-- The part of `url.URL` the program reads. -/
structure URL where
  Scheme : String
deriving DecidableEq, Repr

/-- `func (u *URL) IsAbs() bool { return u.Scheme != "" }` of `net/url`. -/
def URL.IsAbs (u : URL) : Bool := u.Scheme != ""

/-- The part of `*http.Request` the program reads; `vars` is `mux.Vars(r)`,
the variables the matched route bound. -/
structure Request where
  URL : URL
  Host : String
  vars : List (String × String)
deriving DecidableEq, Repr

/-- Go map lookup `vars[key]`: the zero value `""` for a missing key. -/
def Request.var (r : Request) (key : String) : String :=
  (r.vars.lookup key).getD ""

/-! ## `html/template`, for templates made of text and field actions -/

/-- A parsed template: literal text, or the action that prints a field of the
data value. -/
inductive Node where
  | text (s : String)
  | field (name : String)
deriving DecidableEq, Repr

/-- The text collected so far becomes a text node unless it is empty. -/
def flushText (cur : List Char) (rest : List Node) : List Node :=
  if cur.isEmpty then rest else Node.text (String.mk cur.reverse) :: rest

/-- An action body of the form `.Name`. Any other action is outside the
embedded fragment and is reported as an error of the parse. -/
def parseAction (body : List Char) : Except String Node :=
  match body with
  | '.' :: c :: cs =>
    if (c :: cs).all Char.isAlphanum then Except.ok (Node.field (String.mk (c :: cs)))
    else Except.error "template: item: unsupported action"
  | _ => Except.error "template: item: unsupported action"

/-- The scanner of `template.Parse`: `inAction = false` while reading literal
text up to the left delimiter, `inAction = true` while reading an action up to
the right delimiter. `cur` holds the characters read so far, last first. -/
def parseNodes : Bool → List Char → List Char → Except String (List Node)
  | false, cur, [] => Except.ok (flushText cur [])
  | false, cur, '\x7b' :: '\x7b' :: rest =>
    match parseNodes true [] rest with
    | Except.ok ns => Except.ok (flushText cur ns)
    | Except.error e => Except.error e
  | false, cur, c :: rest => parseNodes false (c :: cur) rest
  | true, _, [] => Except.error "template: item: unclosed action"
  | true, cur, '\x7d' :: '\x7d' :: rest =>
    match parseAction cur.reverse, parseNodes false [] rest with
    | Except.ok n, Except.ok ns => Except.ok (n :: ns)
    | Except.error e, _ => Except.error e
    | _, Except.error e => Except.error e
  | true, cur, c :: rest => parseNodes true (c :: cur) rest

/-- The call `template.New("item").Parse(templateString)`. -/
def Parse (templateString : String) : Except String (List Node) :=
  parseNodes false [] templateString.data

/-- The replacement table `htmlReplacementTable` of `html/template/html.go`,
indexed by the code point of the rune: NUL, the double quote, the ampersand,
the apostrophe, the plus sign and the two angle brackets have an entry. -/
def htmlReplacementTable (r : Char) : Option String :=
  match r.toNat with
  | 0 => some "�"
  | 34 => some "&#34;"
  | 38 => some "&amp;"
  | 39 => some "&#39;"
  | 43 => some "&#43;"
  | 60 => some "&lt;"
  | 62 => some "&gt;"
  | _ => none

/-- The loop of `htmlReplacer(s, htmlReplacementTable, true)`: a rune with an
entry in the table is written as its replacement, every other rune as is. -/
def htmlReplacer : List Char → List Char
  | [] => []
  | r :: rest =>
    (match htmlReplacementTable r with
      | some repl => repl.data
      | none => [r]) ++ htmlReplacer rest

/-- The escaper `htmlEscaper` that `html/template` appends to the pipeline of
an action in HTML text context, applied to a plain string. -/
def htmlEscaper (s : String) : String := String.mk (htmlReplacer s.data)

/-- Field lookup of an action `.name` on a value of type `item`, for the
fields of string type. -/
def item.field (i : item) (name : String) : Except String String :=
  if name = "Publisher" then Except.ok i.Publisher
  else if name = "Extension" then Except.ok i.Extension
  else if name = "Version" then Except.ok i.Version
  else if name = "Link" then Except.ok i.Link
  else if name = "DownloadLink" then Except.ok i.DownloadLink
  else if name = "APIDownloadLink" then Except.ok i.APIDownloadLink
  else Except.error ("template: item: can not evaluate field " ++ name)

/-- The call `tmpl.Execute(&doc, i)`: `doc` is the buffer written so far. Both
templates of the program are plain text without markup, so every action is in
HTML text context and its value goes through `htmlEscaper`. -/
def Execute (i : item) : List Node → String → Except String String
  | [], doc => Except.ok doc
  | Node.text s :: rest, doc => Execute i rest (doc ++ s)
  | Node.field name :: rest, doc =>
    match i.field name with
    | Except.ok value => Execute i rest (doc ++ htmlEscaper value)
    | Except.error e => Except.error e

/-! ## Link Builder (`main.go` lines 76-102) -/

def marketplaceURL : String :=
  "https://marketplace.visualstudio.com/items?itemName=\x7b\x7b.Publisher\x7d\x7d.\x7b\x7b.Extension\x7d\x7d"

def marketplaceDownloadURL : String :=
  "https://\x7b\x7b.Publisher\x7d\x7d.gallery.vsassets.io/_apis/public" ++
  "/gallery/publisher/\x7b\x7b.Publisher\x7d\x7d/extension/\x7b\x7b.Extension\x7d\x7d/\x7b\x7b.Version\x7d\x7d" ++
  "/assetbyname/Microsoft.VisualStudio.Services.VSIXPackage"

def item.templateLink (i : item) (templateString : String) : Outcome String :=
  match Parse templateString with
  | Except.error err => Except.error (PanicValue.err err)
  | Except.ok tmpl =>
    match Execute i tmpl "" with
    | Except.error err => Except.error (PanicValue.err err)
    | Except.ok doc => Except.ok doc

def item.GetLink (i : item) : Outcome String :=
  i.templateLink marketplaceURL

def item.GetDownloadLink (i : item) : Outcome String :=
  i.templateLink marketplaceDownloadURL

/-! ## Metadata Extractor (`main.go` lines 104-114) -/

/-- An element node of a fetched page: its classes and the text of its
contents (what `Contents().Text()` yields for it). -/
structure Element where
  classes : List String
  text : String
deriving DecidableEq, Repr

/-- A parsed HTML page (`*goquery.Document`): its element nodes in document
order. -/
structure Document where
  elements : List Element
deriving DecidableEq, Repr

/-- A `*goquery.Selection`: the selected elements in document order. -/
abbrev Selection := List Element

/-- The call `doc.Find(selector)` for a class selector `.name`: the elements
that carry the class. -/
def Document.Find (doc : Document) (selector : String) : Selection :=
  match selector.data with
  | '.' :: name => doc.elements.filter (fun e => e.classes.contains (String.mk name))
  | _ => []

/-- The call `s.First()`: the first element of the selection, if any. -/
def Selection.First (s : Selection) : Selection := s.take 1

/-- The call `s.Contents().Text()`: the text of the contents of the selected
elements, one after the other; the empty string for an empty selection. -/
def Selection.ContentsText (s : Selection) : String :=
  String.join (s.map Element.text)

/-- An HTTP response body as `io.Copy` sees it: the bytes that can be read,
then end of file or a read error. -/
structure Body where
  data : List UInt8
  err : Option String

/-- The part of `*http.Response` the program reads. -/
structure Response where
  Body : Body

/-- The remote world and the decoding library, as functions:
`NewDocument url` is `goquery.NewDocument(url)` (an error when the page cannot
be fetched), `Unmarshal data v` is what `json.Unmarshal(data, &v)` leaves in
`v` together with the error it returns for a non-empty `data`, and `Get url`
is `http.Get(url)`. -/
structure Env where
  NewDocument : String → Except String Document
  Unmarshal : String → vss → vss × Option String
  Get : String → Except String Response

/-- The call `json.Unmarshal(data, &v)`. The decoder first checks that `data`
is one valid JSON value; empty input is not, and is rejected with a syntax
error before `v` is touched. -/
def jsonUnmarshal (env : Env) (data : String) (v : vss) : vss × Option String :=
  if data = "" then (v, some "unexpected end of JSON input")
  else env.Unmarshal data v

def item.GetDetails (env : Env) (i : item) : Outcome vss :=
  match i.GetLink with
  | Except.error p => Except.error p
  | Except.ok link =>
    match env.NewDocument link with
    | Except.error err => Except.error (PanicValue.err err)
    | Except.ok doc =>
      let content := ((doc.Find ".vss-extension").First).ContentsText
      let details := vss.zero
      -- the error `json.Unmarshal` returns is dropped
      let details := (jsonUnmarshal env content details).1
      Except.ok details

/-! ## Resolution Pipeline (`main.go` lines 116-137, 169-176) -/

def getScheme (r : Request) : String :=
  let scheme := r.URL.Scheme
  let scheme := if !r.URL.IsAbs then "http" else scheme
  scheme

/-- The composite literal `item{Publisher: ..., Extension: ..., Version: ...}`
at the head of `getItem`; the other fields have their zero value. -/
def newItem (r : Request) : item :=
  { Publisher := r.var "publisher"
    Extension := r.var "extension"
    Version := r.var "version"
    Link := ""
    DownloadLink := ""
    APIDownloadLink := ""
    Details := vss.zero }

def getItem (env : Env) (r : Request) : Outcome item := do
  let i := newItem r
  let details ← i.GetDetails env
  let i := { i with Details := details }
  let first ← index i.Details.Versions 0
  let i := { i with Version := first.Version }
  let downloadLink ← i.GetDownloadLink
  let i := { i with DownloadLink := downloadLink }
  let link ← i.GetLink
  let i := { i with Link := link }
  let scheme := getScheme r
  let i := { i with APIDownloadLink :=
    scheme ++ "://" ++ r.Host ++ "/" ++ i.Publisher ++ "/" ++ i.Extension ++ "/" ++ i.Version ++ ".VSIX" }
  -- `fmt.Println("Link:", i.GetLink())`
  let _ ← i.GetLink
  pure i

/-! ## Download Proxy (`main.go` lines 146-167) -/

/-- An `http.Header`: canonical key to list of values. -/
abbrev Header := List (String × List String)

/-- The call `h.Set(key, value)`: the key now maps to the single value. -/
def Header.Set (h : Header) (key value : String) : Header :=
  (key, [value]) :: h.filter (fun kv => kv.1 != key)

/-- The call `h.Get(key)`: the first value of the key, or the empty string. -/
def Header.Get (h : Header) (key : String) : String :=
  match h.lookup key with
  | some (v :: _) => v
  | _ => ""

/-- The state of an `http.ResponseWriter`: the header map `w.Header()`, the
status line once committed together with the header map as it was at that
moment (later changes of the map are not sent), and the body bytes written. -/
structure ResponseWriter where
  header : Header
  wroteHeader : Option (Nat × Header)
  body : List UInt8

/-- The call `w.WriteHeader(code)`: commits status and headers once. -/
def ResponseWriter.WriteHeader (w : ResponseWriter) (code : Nat) : ResponseWriter :=
  match w.wroteHeader with
  | some _ => w
  | none => { w with wroteHeader := some (code, w.header) }

/-- The call `w.Write(p)`: commits status 200 and the headers if that has not
happened yet, then appends to the body. -/
def ResponseWriter.Write (w : ResponseWriter) (p : List UInt8) : ResponseWriter :=
  let w := w.WriteHeader 200
  { w with body := w.body ++ p }

/-- The call `io.Copy(w, body)`: the writer afterwards, the number of bytes
copied, and the read error if there was one. -/
def ioCopy (w : ResponseWriter) (body : Body) : ResponseWriter × Nat × Option String :=
  (w.Write body.data, body.data.length, body.err)

/-- The handler: the writer as the handler leaves it, and the panic that ended
the handler, if one did. -/
def downloadMarketExtension (env : Env) (w : ResponseWriter) (r : Request) :
    ResponseWriter × Option PanicValue :=
  match getItem env r with
  | Except.error p => (w, some p)
  | Except.ok item =>
    match item.GetDownloadLink with
    | Except.error p => (w, some p)
    | Except.ok url =>
      let disposition := "attachment; filename=" ++ item.Extension ++ "-" ++ item.Version ++ ".VSIX"
      let w := { w with header := w.header.Set "Content-Disposition" disposition }
      let w := { w with header := w.header.Set "Content-Type" "application/zip" }
      let w := w.WriteHeader 200
      match env.Get url with
      | Except.error err =>
        (w.Write ("Error while downloading " ++ url ++ " - " ++ err).toUTF8.toList, none)
      | Except.ok response =>
        let (w, _, _) := ioCopy w response.Body
        (w, none)

/-! ## Example worlds used by the concrete statements below -/

/-- A version record that carries only its version string. -/
def versionOf (v : String) : version :=
  { Version := v, Flags := "", LastUpdated := "", Files := [], AssetURI := "", FallbackAssetURI := "" }

/-- A page with one element marked `vss-extension`, whose text is `content`. -/
def pageWith (content : String) : Document :=
  { elements :=
      [ { classes := ["ux-section-header"], text := "Overview" },
        { classes := ["jiContent", "vss-extension"], text := content },
        { classes := ["vss-extension"], text := "second" } ] }

/-- A page without any element marked `vss-extension`. -/
def pageWithout : Document :=
  { elements :=
      [ { classes := ["error-page"], text := "404 - Page not found" },
        { classes := [], text := "" } ] }

/-- The JSON text of a record with extension name `foo` and the given
version strings, as the marketplace embeds it in the marked element. -/
def jsonOf (versions : List String) : String :=
  "\x7b\"extensionName\":\"foo\",\"versions\":["
    ++ ",".intercalate (versions.map (fun v => "\x7b\"version\":\"" ++ v ++ "\"\x7d"))
    ++ "]\x7d"

/-- A world in which every page is `doc`, the text `jsonOf versions` decodes
to the record with those versions, any other non-empty text fails to decode,
and every download fails. -/
def worldOf (doc : Document) (versions : List String) : Env :=
  { NewDocument := fun _ => Except.ok doc
    Unmarshal := fun data v =>
      if data = jsonOf versions then
        ({ v with ExtensionName := "foo", Versions := versions.map versionOf }, none)
      else (v, some "invalid character")
    Get := fun _ => Except.error "dial tcp: connection refused" }

/-- The marketplace serving, for every extension, a page whose marked element
holds the record with the given versions. -/
def marketplace (versions : List String) : Env :=
  worldOf (pageWith (jsonOf versions)) versions

/-- The request `GET /publisher/extension` as the router hands it over. -/
def printRequest (scheme host publisher extension : String) : Request :=
  { URL := { Scheme := scheme }
    Host := host
    vars := [("publisher", publisher), ("extension", extension)] }

/-- The request `GET /publisher/extension/pinned.VSIX` as the router hands it
over. -/
def downloadRequest (scheme host publisher extension pinned : String) : Request :=
  { URL := { Scheme := scheme }
    Host := host
    vars := [("publisher", publisher), ("extension", extension), ("version", pinned)] }

/-- An item that carries a publisher, an extension and a version, as
`getItem` builds it before the links are filled in. -/
def itemOf (p e v : String) : item :=
  { Publisher := p, Extension := e, Version := v, Link := "", DownloadLink := "",
    APIDownloadLink := "", Details := vss.zero }

/-- A writer on which nothing has been set, committed or written. -/
def freshWriter : ResponseWriter := { header := [], wroteHeader := none, body := [] }

/-- The record `jsonOf versions` decodes to in `worldOf`. -/
def recordOf (versions : List String) : vss :=
  { vss.zero with ExtensionName := "foo", Versions := versions.map versionOf }

/-- The item `getItem` builds from the request, the fetched record and the
first version record. -/
def resolved (r : Request) (d : vss) (first : version) : item :=
  { Publisher := r.var "publisher"
    Extension := r.var "extension"
    Version := first.Version
    Link := "https://marketplace.visualstudio.com/items?itemName="
      ++ htmlEscaper (r.var "publisher") ++ "." ++ htmlEscaper (r.var "extension")
    DownloadLink := "https://" ++ htmlEscaper (r.var "publisher")
      ++ ".gallery.vsassets.io/_apis/public/gallery/publisher/" ++ htmlEscaper (r.var "publisher")
      ++ "/extension/" ++ htmlEscaper (r.var "extension") ++ "/" ++ htmlEscaper first.Version
      ++ "/assetbyname/Microsoft.VisualStudio.Services.VSIXPackage"
    APIDownloadLink := getScheme r ++ "://" ++ r.Host ++ "/" ++ r.var "publisher" ++ "/"
      ++ r.var "extension" ++ "/" ++ first.Version ++ ".VSIX"
    Details := d }

/-! ## Lemmas on the Link Builder -/

theorem htmlReplacer_of_no_entry (cs : List Char)
    (h : ∀ c ∈ cs, htmlReplacementTable c = none) : htmlReplacer cs = cs := by
  induction cs with
  | nil => rfl
  | cons c cs ih =>
    have hc := h c (List.mem_cons_self c cs)
    have ht := ih (fun d hd => h d (List.mem_cons_of_mem c hd))
    simp [htmlReplacer, hc, ht]

theorem htmlEscaper_of_no_entry (s : String)
    (h : ∀ c ∈ s.data, htmlReplacementTable c = none) : htmlEscaper s = s := by
  unfold htmlEscaper
  rw [htmlReplacer_of_no_entry s.data h]

/-- Both templates parse and execute on every item: `GetLink` never panics. -/
theorem GetLink_eq (i : item) :
    i.GetLink = Except.ok ("https://marketplace.visualstudio.com/items?itemName="
      ++ htmlEscaper i.Publisher ++ "." ++ htmlEscaper i.Extension) := by
  have h : i.GetLink = Except.ok ("" ++ "https://marketplace.visualstudio.com/items?itemName="
      ++ htmlEscaper i.Publisher ++ "." ++ htmlEscaper i.Extension) := rfl
  simpa using h

theorem GetDownloadLink_eq (i : item) :
    i.GetDownloadLink = Except.ok ("https://" ++ htmlEscaper i.Publisher
      ++ ".gallery.vsassets.io/_apis/public/gallery/publisher/" ++ htmlEscaper i.Publisher
      ++ "/extension/" ++ htmlEscaper i.Extension ++ "/" ++ htmlEscaper i.Version
      ++ "/assetbyname/Microsoft.VisualStudio.Services.VSIXPackage") := by
  have h : i.GetDownloadLink = Except.ok ("" ++ "https://" ++ htmlEscaper i.Publisher
      ++ ".gallery.vsassets.io/_apis/public/gallery/publisher/" ++ htmlEscaper i.Publisher
      ++ "/extension/" ++ htmlEscaper i.Extension ++ "/" ++ htmlEscaper i.Version
      ++ "/assetbyname/Microsoft.VisualStudio.Services.VSIXPackage") := rfl
  simpa using h

/-! ## Lemmas on the Resolution Pipeline -/

theorem getItem_of_versions (env : Env) (r : Request) (d : vss) (first : version)
    (rest : List version) (hd : (newItem r).GetDetails env = Except.ok d)
    (hv : d.Versions = first :: rest) : getItem env r = Except.ok (resolved r d first) := by
  simp only [getItem, hd, hv, index, bind, Except.bind, pure, Except.pure, GetLink_eq,
    GetDownloadLink_eq, List.get?]
  rfl

theorem getItem_of_no_versions (env : Env) (r : Request) (d : vss)
    (hd : (newItem r).GetDetails env = Except.ok d) (hv : d.Versions = []) :
    getItem env r = Except.error (PanicValue.indexOutOfRange 0 0) := by
  simp only [getItem, hd, hv, index, bind, Except.bind, List.get?, List.length]

theorem getItem_of_details_panic (env : Env) (r : Request) (p : PanicValue)
    (hd : (newItem r).GetDetails env = Except.error p) : getItem env r = Except.error p := by
  simp only [getItem, hd, bind, Except.bind]

/-- Every returned item is built from a fetched record with a first version. -/
theorem getItem_ok_inv (env : Env) (r : Request) (i : item) (h : getItem env r = Except.ok i) :
    ∃ d first rest, (newItem r).GetDetails env = Except.ok d ∧ d.Versions = first :: rest
      ∧ i = resolved r d first := by
  cases hd : (newItem r).GetDetails env with
  | error p => rw [getItem_of_details_panic env r p hd] at h; cases h
  | ok d =>
    cases hv : d.Versions with
    | nil => rw [getItem_of_no_versions env r d hd hv] at h; cases h
    | cons first rest =>
      rw [getItem_of_versions env r d first rest hd hv] at h
      exact ⟨d, first, rest, rfl, hv, (Except.ok.inj h).symm⟩

/-! ## Version resolution -/

/-- C1: when the request pins no version and the fetched record has a
non-empty `Versions` list, `getItem` returns an item, and its `Version` is the
`Version` of the first entry of `Details.Versions`; no other entry is looked
at. -/
theorem getItem_unpinned_version_is_first (env : Env) (r : Request) (d : vss)
    (_hpin : r.vars.lookup "version" = none)
    (hd : (newItem r).GetDetails env = Except.ok d) (hne : d.Versions ≠ []) :
    ∃ i first, getItem env r = Except.ok i ∧ i.Details = d
      ∧ i.Details.Versions.head? = some first ∧ i.Version = first.Version := by
  cases hv : d.Versions with
  | nil => exact absurd hv hne
  | cons first rest =>
    refine ⟨resolved r d first, first, getItem_of_versions env r d first rest hd hv, rfl, ?_, rfl⟩
    show d.Versions.head? = some first
    rw [hv]
    rfl

theorem getItem_unpinned_version_is_first_witness :
    ∃ i first,
      getItem (marketplace ["2.0", "1.0"])
        (printRequest "" "localhost:8080" "acme" "foo") = Except.ok i
      ∧ i.Details = recordOf ["2.0", "1.0"]
      ∧ i.Details.Versions.head? = some first ∧ i.Version = first.Version :=
  getItem_unpinned_version_is_first (marketplace ["2.0", "1.0"])
    (printRequest "" "localhost:8080" "acme" "foo") (recordOf ["2.0", "1.0"])
    (by decide) (by rfl) (by decide)

/-- C2: the code at a request that pins a version. For
`GET /acme/foo/1.0.VSIX`, with a fetched record whose `Versions` are `2.0` and
`1.0`, the route variable `version` is `1.0` and the returned item has
`Version` `2.0`: the pinned value is overwritten by the first entry of the
record. -/
theorem getItem_pinned_version_overwritten :
    (downloadRequest "" "localhost:8080" "acme" "foo" "1.0").var "version" = "1.0"
    ∧ (newItem (downloadRequest "" "localhost:8080" "acme" "foo" "1.0")).Version = "1.0"
    ∧ ∃ i, getItem (marketplace ["2.0", "1.0"])
          (downloadRequest "" "localhost:8080" "acme" "foo" "1.0") = Except.ok i
        ∧ i.Version = "2.0" ∧ i.Version ≠ "1.0" := by
  refine ⟨by decide, by decide, ?_⟩
  refine ⟨resolved (downloadRequest "" "localhost:8080" "acme" "foo" "1.0")
    (recordOf ["2.0", "1.0"]) (versionOf "2.0"), ?_, rfl, by decide⟩
  exact getItem_of_versions _ _ _ (versionOf "2.0") [versionOf "1.0"] (by rfl) (by rfl)

/-! ## The proxied download link -/

/-- C3: the `APIDownloadLink` of every item `getItem` returns is the scheme
`getScheme` yields for the request, `://`, the request host, and the
publisher, the extension and the resolved version followed by `.VSIX`,
separated by `/`. With scheme `https`, host `ext.example.com`, publisher
`acme`, extension `foo` and resolved version `3.1` the link is
`https://ext.example.com/acme/foo/3.1.VSIX`; with a record whose versions are
`2.0` and `1.0` and no pinned version the link ends in `/2.0.VSIX`. -/
theorem getItem_APIDownloadLink (env : Env) (r : Request) (i : item)
    (h : getItem env r = Except.ok i) :
    i.Publisher = r.var "publisher" ∧ i.Extension = r.var "extension"
    ∧ i.APIDownloadLink = getScheme r ++ "://" ++ r.Host ++ "/" ++ i.Publisher ++ "/"
        ++ i.Extension ++ "/" ++ i.Version ++ ".VSIX"
    ∧ (r.URL.Scheme = "https" → r.Host = "ext.example.com" → i.Publisher = "acme"
        → i.Extension = "foo" → i.Version = "3.1"
        → i.APIDownloadLink = "https://ext.example.com/acme/foo/3.1.VSIX")
    ∧ (∀ a b, r.vars.lookup "version" = none → i.Details.Versions = [a, b]
        → a.Version = "2.0" → b.Version = "1.0"
        → ∃ front, i.APIDownloadLink = front ++ "/2.0.VSIX") := by
  obtain ⟨d, first, rest, _, hv, hi⟩ := getItem_ok_inv env r i h
  subst hi
  refine ⟨rfl, rfl, rfl, ?_, ?_⟩
  · intro hs hh hp he hver
    show getScheme r ++ "://" ++ r.Host ++ "/" ++ (resolved r d first).Publisher ++ "/"
        ++ (resolved r d first).Extension ++ "/" ++ (resolved r d first).Version ++ ".VSIX" = _
    have hsch : getScheme r = "https" := by simp [getScheme, URL.IsAbs, hs]
    rw [hsch, hh, hp, he, hver]
    rfl
  · intro a b _ hab ha _
    have hd : (resolved r d first).Details.Versions = first :: rest := hv
    rw [hab] at hd
    have hfirst : first = a := by
      injection hd with h1 _
      exact h1.symm
    refine ⟨getScheme r ++ "://" ++ r.Host ++ "/" ++ r.var "publisher" ++ "/"
        ++ r.var "extension", ?_⟩
    show getScheme r ++ "://" ++ r.Host ++ "/" ++ r.var "publisher" ++ "/"
        ++ r.var "extension" ++ "/" ++ first.Version ++ ".VSIX" = _
    rw [hfirst, ha]
    simp only [String.append_assoc]
    rfl

theorem getItem_APIDownloadLink_witness :
    getItem (marketplace ["3.1"])
        (printRequest "https" "ext.example.com" "acme" "foo")
      = Except.ok (resolved (printRequest "https" "ext.example.com" "acme" "foo")
          (recordOf ["3.1"]) (versionOf "3.1"))
    ∧ (resolved (printRequest "https" "ext.example.com" "acme" "foo") (recordOf ["3.1"])
        (versionOf "3.1")).APIDownloadLink = "https://ext.example.com/acme/foo/3.1.VSIX"
    ∧ ∃ front, (resolved (printRequest "" "localhost:8080" "acme" "foo")
        (recordOf ["2.0", "1.0"]) (versionOf "2.0")).APIDownloadLink = front ++ "/2.0.VSIX" :=
  ⟨getItem_of_versions _ _ _ (versionOf "3.1") [] (by rfl) (by rfl),
   (getItem_APIDownloadLink (marketplace ["3.1"])
      (printRequest "https" "ext.example.com" "acme" "foo")
      (resolved (printRequest "https" "ext.example.com" "acme" "foo") (recordOf ["3.1"])
        (versionOf "3.1"))
      (getItem_of_versions _ _ _ (versionOf "3.1") [] (by rfl) (by rfl))).2.2.2.1
      (by rfl) (by rfl) (by rfl) (by rfl) (by rfl),
   (getItem_APIDownloadLink (marketplace ["2.0", "1.0"])
      (printRequest "" "localhost:8080" "acme" "foo")
      (resolved (printRequest "" "localhost:8080" "acme" "foo") (recordOf ["2.0", "1.0"])
        (versionOf "2.0"))
      (getItem_of_versions _ _ _ (versionOf "2.0") [versionOf "1.0"] (by rfl) (by rfl))).2.2.2.2
      (versionOf "2.0") (versionOf "1.0") (by decide) (by rfl) (by rfl) (by rfl)⟩

/-! ## The display link and the download link -/

/-- C4, as stated, fails: for publisher `a+b` and extension `c` the template
engine writes the plus sign as `&#43;`, so `GetLink` is not the template with
the publisher substituted verbatim. -/
theorem GetLink_not_verbatim :
    "a+b" ≠ "" ∧ "c" ≠ ""
    ∧ (itemOf "a+b" "c" "").GetLink
        = Except.ok "https://marketplace.visualstudio.com/items?itemName=a&#43;b.c"
    ∧ (itemOf "a+b" "c" "").GetLink
        ≠ Except.ok ("https://marketplace.visualstudio.com/items?itemName=" ++ "a+b" ++ "." ++ "c") := by
  refine ⟨by decide, by decide, by rfl, ?_⟩
  have h : (itemOf "a+b" "c" "").GetLink
      = Except.ok "https://marketplace.visualstudio.com/items?itemName=a&#43;b.c" := by rfl
  rw [h]
  intro hc
  exact absurd (Except.ok.inj hc) (by decide)

/-- C4, amended: for every publisher and extension in which no character has
an entry in the escaper's replacement table (NUL, double quote, ampersand,
apostrophe, plus sign, angle brackets), `GetLink` returns, without a panic,
exactly the display template with the publisher and the extension substituted
verbatim; no template variable is left and nothing else is altered. -/
theorem GetLink_verbatim (i : item)
    (hp : ∀ c ∈ i.Publisher.data, htmlReplacementTable c = none)
    (he : ∀ c ∈ i.Extension.data, htmlReplacementTable c = none) :
    i.GetLink = Except.ok ("https://marketplace.visualstudio.com/items?itemName="
      ++ i.Publisher ++ "." ++ i.Extension) := by
  rw [GetLink_eq, htmlEscaper_of_no_entry _ hp, htmlEscaper_of_no_entry _ he]

theorem GetLink_verbatim_witness :
    (itemOf "acme" "foo" "").GetLink
      = Except.ok ("https://marketplace.visualstudio.com/items?itemName=" ++ "acme" ++ "." ++ "foo") :=
  GetLink_verbatim (itemOf "acme" "foo" "") (by decide) (by decide)

/-- C5, as stated, fails: for `GET /a+b/c` and a record whose first version is
`2.0`, the `DownloadLink` of the returned item has `a&#43;b` where the template
with the publisher substituted verbatim has `a+b`. -/
theorem getItem_DownloadLink_not_verbatim :
    ∃ i, getItem (marketplace ["2.0", "1.0"])
        (printRequest "" "localhost:8080" "a+b" "c") = Except.ok i
      ∧ i.Publisher = "a+b" ∧ i.Extension = "c" ∧ i.Version = "2.0"
      ∧ i.DownloadLink = "https://a&#43;b.gallery.vsassets.io/_apis/public/gallery/publisher/a&#43;b/extension/c/2.0/assetbyname/Microsoft.VisualStudio.Services.VSIXPackage"
      ∧ i.DownloadLink ≠ "https://" ++ i.Publisher
          ++ ".gallery.vsassets.io/_apis/public/gallery/publisher/" ++ i.Publisher
          ++ "/extension/" ++ i.Extension ++ "/" ++ i.Version
          ++ "/assetbyname/Microsoft.VisualStudio.Services.VSIXPackage" := by
  refine ⟨resolved (printRequest "" "localhost:8080" "a+b" "c") (recordOf ["2.0", "1.0"])
    (versionOf "2.0"), ?_, by rfl, by rfl, by rfl, by rfl, ?_⟩
  · exact getItem_of_versions _ _ _ (versionOf "2.0") [versionOf "1.0"] (by rfl) (by rfl)
  · have h : (resolved (printRequest "" "localhost:8080" "a+b" "c") (recordOf ["2.0", "1.0"])
        (versionOf "2.0")).DownloadLink = "https://a&#43;b.gallery.vsassets.io/_apis/public/gallery/publisher/a&#43;b/extension/c/2.0/assetbyname/Microsoft.VisualStudio.Services.VSIXPackage" := by rfl
    rw [h]
    decide

/-- C5, amended: for every item `getItem` returns whose publisher, extension
and version contain no character with an entry in the escaper's replacement
table, `DownloadLink` is the download template with the publisher, the
extension and the item's own `Version` substituted verbatim. -/
theorem getItem_DownloadLink (env : Env) (r : Request) (i : item)
    (h : getItem env r = Except.ok i)
    (hp : ∀ c ∈ i.Publisher.data, htmlReplacementTable c = none)
    (he : ∀ c ∈ i.Extension.data, htmlReplacementTable c = none)
    (hv : ∀ c ∈ i.Version.data, htmlReplacementTable c = none) :
    i.DownloadLink = "https://" ++ i.Publisher
      ++ ".gallery.vsassets.io/_apis/public/gallery/publisher/" ++ i.Publisher
      ++ "/extension/" ++ i.Extension ++ "/" ++ i.Version
      ++ "/assetbyname/Microsoft.VisualStudio.Services.VSIXPackage"
    ∧ i.GetDownloadLink = Except.ok i.DownloadLink := by
  obtain ⟨d, first, rest, _, _, hi⟩ := getItem_ok_inv env r i h
  subst hi
  have hp2 : htmlEscaper (r.var "publisher") = r.var "publisher" := htmlEscaper_of_no_entry _ hp
  have he2 : htmlEscaper (r.var "extension") = r.var "extension" := htmlEscaper_of_no_entry _ he
  have hv2 : htmlEscaper first.Version = first.Version := htmlEscaper_of_no_entry _ hv
  constructor
  · show "https://" ++ htmlEscaper (r.var "publisher")
      ++ ".gallery.vsassets.io/_apis/public/gallery/publisher/" ++ htmlEscaper (r.var "publisher")
      ++ "/extension/" ++ htmlEscaper (r.var "extension") ++ "/" ++ htmlEscaper first.Version
      ++ "/assetbyname/Microsoft.VisualStudio.Services.VSIXPackage" = _
    rw [hp2, he2, hv2]
    rfl
  · rw [GetDownloadLink_eq]
    rfl

theorem getItem_DownloadLink_witness :
    (resolved (printRequest "" "localhost:8080" "acme" "foo") (recordOf ["2.0", "1.0"])
        (versionOf "2.0")).DownloadLink
      = "https://" ++ "acme" ++ ".gallery.vsassets.io/_apis/public/gallery/publisher/" ++ "acme"
        ++ "/extension/" ++ "foo" ++ "/" ++ "2.0"
        ++ "/assetbyname/Microsoft.VisualStudio.Services.VSIXPackage" :=
  (getItem_DownloadLink (marketplace ["2.0", "1.0"])
    (printRequest "" "localhost:8080" "acme" "foo")
    (resolved (printRequest "" "localhost:8080" "acme" "foo") (recordOf ["2.0", "1.0"])
      (versionOf "2.0"))
    (getItem_of_versions _ _ _ (versionOf "2.0") [versionOf "1.0"] (by rfl) (by rfl))
    (by decide) (by decide) (by decide)).1

/-! ## Failure of the resolution -/

/-- C6, as stated, fails: for `GET /acme/foo` and a fetched record without
versions, `getItem` ends in the bounds-check panic the runtime raises for
`Details.Versions[0]`; it is not an error value the program raises or
reports. -/
theorem getItem_empty_versions_no_dedicated_error :
    (printRequest "" "localhost:8080" "acme" "foo").vars.lookup "version" = none
    ∧ (newItem (printRequest "" "localhost:8080" "acme" "foo")).GetDetails
        (marketplace []) = Except.ok (recordOf [])
    ∧ getItem (marketplace [])
        (printRequest "" "localhost:8080" "acme" "foo")
      = Except.error (PanicValue.indexOutOfRange 0 0)
    ∧ ¬ ∃ msg, getItem (marketplace [])
        (printRequest "" "localhost:8080" "acme" "foo") = Except.error (PanicValue.err msg) := by
  have h : getItem (marketplace [])
        (printRequest "" "localhost:8080" "acme" "foo")
      = Except.error (PanicValue.indexOutOfRange 0 0) :=
    getItem_of_no_versions _ _ (recordOf []) (by rfl) (by rfl)
  refine ⟨by decide, by rfl, h, ?_⟩
  rintro ⟨msg, hm⟩
  rw [h] at hm
  cases hm

/-- C6, amended: when the request pins no version and the fetched record has
an empty `Versions` list, `getItem` returns no item: it ends in the runtime
panic "index out of range [0] with length 0" raised by `Details.Versions[0]`. -/
theorem getItem_empty_versions_panics (env : Env) (r : Request) (d : vss)
    (_hpin : r.vars.lookup "version" = none)
    (hd : (newItem r).GetDetails env = Except.ok d) (hv : d.Versions = []) :
    getItem env r = Except.error (PanicValue.indexOutOfRange 0 0)
    ∧ ∀ i, getItem env r ≠ Except.ok i := by
  have h := getItem_of_no_versions env r d hd hv
  refine ⟨h, ?_⟩
  intro i hi
  rw [h] at hi
  cases hi

theorem getItem_empty_versions_panics_witness :
    getItem (marketplace [])
        (printRequest "https" "ext.example.com" "acme" "foo")
      = Except.error (PanicValue.indexOutOfRange 0 0)
    ∧ ∀ i, getItem (marketplace [])
        (printRequest "https" "ext.example.com" "acme" "foo") ≠ Except.ok i :=
  getItem_empty_versions_panics (marketplace [])
    (printRequest "https" "ext.example.com" "acme" "foo") (recordOf [])
    (by decide) (by rfl) (by rfl)

/-- On a page without an element of class `vss-extension` the selection is
empty, its text is the empty string, the decoder rejects it, the error is
dropped and `GetDetails` returns the zero record. -/
theorem GetDetails_of_no_marker (env : Env) (i : item) (doc : Document)
    (hdoc : env.NewDocument ("https://marketplace.visualstudio.com/items?itemName="
      ++ htmlEscaper i.Publisher ++ "." ++ htmlEscaper i.Extension) = Except.ok doc)
    (hno : ∀ e ∈ doc.elements, "vss-extension" ∉ e.classes) :
    i.GetDetails env = Except.ok vss.zero := by
  have hfind : doc.Find ".vss-extension" = [] := by
    show doc.elements.filter (fun e => e.classes.contains "vss-extension") = []
    rw [List.filter_eq_nil_iff]
    intro e he
    simpa using hno e he
  simp only [item.GetDetails, GetLink_eq, hdoc, hfind]
  rfl

/-- C7: the code on a page without the marked element. The page of the
example has no element of class `vss-extension`; `GetDetails` does not fail on
it, it returns the zero record (and `getItem` then ends in the bounds-check
panic on the empty `Versions`). -/
theorem GetDetails_no_marker_returns_zero_record :
    (∀ e ∈ pageWithout.elements, "vss-extension" ∉ e.classes)
    ∧ (newItem (printRequest "" "localhost:8080" "acme" "foo")).GetDetails
        (worldOf pageWithout ["2.0", "1.0"]) = Except.ok vss.zero
    ∧ getItem (worldOf pageWithout ["2.0", "1.0"])
        (printRequest "" "localhost:8080" "acme" "foo")
      = Except.error (PanicValue.indexOutOfRange 0 0) := by
  have h : (newItem (printRequest "" "localhost:8080" "acme" "foo")).GetDetails
        (worldOf pageWithout ["2.0", "1.0"]) = Except.ok vss.zero :=
    GetDetails_of_no_marker _ _ pageWithout (by rfl) (by decide)
  exact ⟨by decide, h, getItem_of_no_versions _ _ vss.zero h (by rfl)⟩

/-! ## The invariant of a resolved item -/

/-- C9: every item `getItem` returns satisfies the invariant of a resolved
item: when the request pins no version, `Version` is the version of the first
entry of `Details.Versions`; when the request pins a version, the item's
`Version` is among the version strings of `Details.Versions`. -/
theorem getItem_resolved_invariant (env : Env) (r : Request) (i : item)
    (h : getItem env r = Except.ok i) :
    (r.vars.lookup "version" = none →
      ∃ first, i.Details.Versions.head? = some first ∧ i.Version = first.Version)
    ∧ (∀ pinned, r.vars.lookup "version" = some pinned →
      i.Version ∈ i.Details.Versions.map version.Version) := by
  obtain ⟨d, first, rest, _, hv, hi⟩ := getItem_ok_inv env r i h
  subst hi
  have hd : (resolved r d first).Details.Versions = first :: rest := hv
  constructor
  · intro _
    exact ⟨first, by rw [hd]; rfl, rfl⟩
  · intro pinned _
    rw [hd]
    exact List.mem_map_of_mem version.Version (List.mem_cons_self first rest)

theorem getItem_resolved_invariant_witness :
    (resolved (downloadRequest "" "localhost:8080" "acme" "foo" "1.0") (recordOf ["2.0", "1.0"])
        (versionOf "2.0")).Version
      ∈ (resolved (downloadRequest "" "localhost:8080" "acme" "foo" "1.0")
          (recordOf ["2.0", "1.0"]) (versionOf "2.0")).Details.Versions.map version.Version :=
  (getItem_resolved_invariant (marketplace ["2.0", "1.0"])
    (downloadRequest "" "localhost:8080" "acme" "foo" "1.0")
    (resolved (downloadRequest "" "localhost:8080" "acme" "foo" "1.0") (recordOf ["2.0", "1.0"])
      (versionOf "2.0"))
    (getItem_of_versions _ _ _ (versionOf "2.0") [versionOf "1.0"] (by rfl) (by rfl))).2
    "1.0" (by decide)

/-! ## The download handler -/

theorem Header.Get_Set_same (h : Header) (key value : String) :
    Header.Get (Header.Set h key value) key = value := by
  simp [Header.Get, Header.Set, List.lookup]

theorem Header.lookup_filter_ne (h : Header) (key other : String) (hne : key ≠ other) :
    List.lookup key (h.filter (fun kv => kv.1 != other)) = List.lookup key h := by
  induction h with
  | nil => rfl
  | cons kv rest ih =>
    obtain ⟨k, v⟩ := kv
    by_cases hk : k = other
    · subst hk
      have h1 : (key == k) = false := by simpa using hne
      simp [List.filter, List.lookup, h1, ih]
    · have h2 : (k != other) = true := by simpa using hk
      simp only [List.filter, h2, List.lookup, ih]

theorem Header.Get_Set_other (h : Header) (key other value : String) (hne : key ≠ other) :
    Header.Get (Header.Set h other value) key = Header.Get h key := by
  have h1 : (key == other) = false := by simpa using hne
  simp only [Header.Get, Header.Set, List.lookup, h1, Header.lookup_filter_ne h key other hne]

/-- C8: for every request on which `getItem` returns an item and every writer
whose headers are not committed yet, whatever the upstream GET does,
`downloadMarketExtension` commits status 200 together with
a header map in which `Content-Disposition` is
`attachment; filename=` extension `-` version `.VSIX` and `Content-Type` is
`application/zip`; the headers are committed before the handler writes any
body byte: the body written is the error message when the GET fails and the
upstream bytes when it succeeds. -/
theorem downloadMarketExtension_headers (env : Env) (w : ResponseWriter) (r : Request)
    (i : item) (hw : w.wroteHeader = none) (h : getItem env r = Except.ok i) :
    ∃ sent, (downloadMarketExtension env w r).1.wroteHeader = some (200, sent)
      ∧ Header.Get sent "Content-Disposition"
          = "attachment; filename=" ++ i.Extension ++ "-" ++ i.Version ++ ".VSIX"
      ∧ Header.Get sent "Content-Type" = "application/zip"
      ∧ (downloadMarketExtension env w r).2 = none
      ∧ (∀ err, env.Get i.DownloadLink = Except.error err →
          (downloadMarketExtension env w r).1.body = w.body
            ++ ("Error while downloading " ++ i.DownloadLink ++ " - " ++ err).toUTF8.toList)
      ∧ (∀ response, env.Get i.DownloadLink = Except.ok response →
          (downloadMarketExtension env w r).1.body = w.body ++ response.Body.data) := by
  obtain ⟨d, first, rest, _, _, hi⟩ := getItem_ok_inv env r i h
  have hurl : i.GetDownloadLink = Except.ok i.DownloadLink := by
    rw [GetDownloadLink_eq, hi]
    rfl
  refine ⟨Header.Set (Header.Set w.header "Content-Disposition"
      ("attachment; filename=" ++ i.Extension ++ "-" ++ i.Version ++ ".VSIX"))
      "Content-Type" "application/zip", ?_, ?_, ?_, ?_, ?_, ?_⟩
  · simp only [downloadMarketExtension, h, hurl]
    cases env.Get i.DownloadLink <;>
      simp [ResponseWriter.WriteHeader, ResponseWriter.Write, ioCopy, hw]
  · rw [Header.Get_Set_other _ _ _ _ (by decide), Header.Get_Set_same]
  · rw [Header.Get_Set_same]
  · simp only [downloadMarketExtension, h, hurl]
    cases env.Get i.DownloadLink <;> rfl
  · intro err herr
    simp [downloadMarketExtension, h, hurl, herr, ResponseWriter.WriteHeader,
      ResponseWriter.Write, hw]
  · intro response hresp
    simp [downloadMarketExtension, h, hurl, hresp, ResponseWriter.WriteHeader,
      ResponseWriter.Write, ioCopy, hw]

theorem downloadMarketExtension_headers_witness :
    ∃ sent, (downloadMarketExtension (marketplace ["3.1"])
        freshWriter (downloadRequest "https" "ext.example.com" "acme" "foo" "3.1")).1.wroteHeader
          = some (200, sent)
      ∧ Header.Get sent "Content-Disposition" = "attachment; filename=foo-3.1.VSIX"
      ∧ Header.Get sent "Content-Type" = "application/zip" := by
  obtain ⟨sent, h1, h2, h3, _⟩ := downloadMarketExtension_headers
    (marketplace ["3.1"]) freshWriter
    (downloadRequest "https" "ext.example.com" "acme" "foo" "3.1")
    (resolved (downloadRequest "https" "ext.example.com" "acme" "foo" "3.1") (recordOf ["3.1"])
      (versionOf "3.1"))
    (by rfl) (getItem_of_versions _ _ _ (versionOf "3.1") [] (by rfl) (by rfl))
  exact ⟨sent, h1, h2, h3⟩

/-! ## The scheme of the request -/

/-- C10: `getScheme` returns the scheme of the request URL when it is
non-empty, which is when the URL is absolute, and `http` otherwise; its result
is never empty, and for a scheme as the URL parser yields it (empty, or
starting with a letter) the `APIDownloadLink` of a returned item does not start
with `://`. -/
theorem getScheme_spec (r : Request) :
    (r.URL.IsAbs = true ↔ r.URL.Scheme ≠ "")
    ∧ (r.URL.Scheme ≠ "" → getScheme r = r.URL.Scheme)
    ∧ (r.URL.Scheme = "" → getScheme r = "http")
    ∧ getScheme r ≠ ""
    ∧ ∀ env i, getItem env r = Except.ok i →
        (∀ c cs, r.URL.Scheme.data = c :: cs → c.isAlpha = true) →
        ¬ ("://".data <+: i.APIDownloadLink.data) := by
  have habs : r.URL.IsAbs = true ↔ r.URL.Scheme ≠ "" := by simp [URL.IsAbs]
  have h1 : r.URL.Scheme ≠ "" → getScheme r = r.URL.Scheme := by
    intro hne
    simp [getScheme, URL.IsAbs, hne]
  have h2 : r.URL.Scheme = "" → getScheme r = "http" := by
    intro he
    simp [getScheme, URL.IsAbs, he]
  have h3 : getScheme r ≠ "" := by
    by_cases he : r.URL.Scheme = ""
    · rw [h2 he]
      decide
    · rw [h1 he]
      exact he
  refine ⟨habs, h1, h2, h3, ?_⟩
  intro env i hget hwf hpre
  obtain ⟨d, first, rest, _, _, hi⟩ := getItem_ok_inv env r i hget
  subst hi
  have hlink : (resolved r d first).APIDownloadLink.data
      = (getScheme r).data ++ ("://" ++ r.Host ++ "/" ++ r.var "publisher" ++ "/"
        ++ r.var "extension" ++ "/" ++ first.Version ++ ".VSIX").data := by
    simp [resolved, String.data_append]
  rw [hlink] at hpre
  by_cases he : r.URL.Scheme = ""
  · rw [h2 he] at hpre
    revert hpre
    show ¬ ((Char.ofNat 58 :: Char.ofNat 47 :: [Char.ofNat 47]) <+: (Char.ofNat 104 :: _))
    rw [List.cons_prefix_cons]
    rintro ⟨hc, _⟩
    revert hc
    decide
  · rw [h1 he] at hpre
    cases hs : r.URL.Scheme.data with
    | nil => exact he (String.ext hs)
    | cons c cs =>
      have hc := hwf c cs hs
      rw [hs] at hpre
      revert hpre
      show ¬ ((Char.ofNat 58 :: Char.ofNat 47 :: [Char.ofNat 47]) <+: (c :: _))
      rw [List.cons_prefix_cons]
      rintro ⟨hcc, _⟩
      rw [← hcc] at hc
      revert hc
      decide

theorem getScheme_spec_witness :
    getScheme (printRequest "" "localhost:8080" "acme" "foo") = "http"
    ∧ getScheme (printRequest "https" "ext.example.com" "acme" "foo") = "https"
    ∧ ¬ ("://".data <+: (resolved (printRequest "https" "ext.example.com" "acme" "foo")
        (recordOf ["3.1"]) (versionOf "3.1")).APIDownloadLink.data) :=
  ⟨(getScheme_spec (printRequest "" "localhost:8080" "acme" "foo")).2.2.1 (by rfl),
   (getScheme_spec (printRequest "https" "ext.example.com" "acme" "foo")).2.1 (by decide),
   (getScheme_spec (printRequest "https" "ext.example.com" "acme" "foo")).2.2.2.2
     (marketplace ["3.1"])
     (resolved (printRequest "https" "ext.example.com" "acme" "foo") (recordOf ["3.1"])
       (versionOf "3.1"))
     (getItem_of_versions _ _ _ (versionOf "3.1") [] (by rfl) (by rfl))
     (by
       intro c cs hcs
       have hh : c = Char.ofNat 104 := by
         injection hcs with h1 _
         exact h1.symm
       rw [hh]
       decide)⟩

end Marketplace
